import Mathlib

/-!
# meli-proxy: verification of the request-handling data plane

Shallow embedding of the quota engine, request classifier, coordinator,
reverse-proxy error paths and async metrics pipeline of the meli-proxy
repository, together with theorems settling the specification claims.

Strings are modelled as lists of characters so that every operation is a
plain structural recursion that the kernel can evaluate.
-/

namespace MeliProxy

/-- Strings are modelled as lists of characters. -/
abbrev Str := List Char

/-- Coerce a Lean string literal to the list-of-characters model. -/
def str (s : String) : Str := s.data

/-! ## Models of Go standard-library string helpers -/

/-- Model of Go strings.Split with a single-character separator.
Splitting the empty string yields one empty field, as in Go. -/
def splitOnChar (sep : Char) : Str → List Str
  | [] => [[]]
  | c :: rest =>
    let r := splitOnChar sep rest
    if c = sep then [] :: r
    else
      match r with
      | [] => [[c]]
      | p :: ps => (c :: p) :: ps

/-- Whitespace recognised by the model of Go strings.TrimSpace. -/
def isSpaceChar (c : Char) : Bool :=
  c = ' ' || c = '\t' || c = '\n' || c = '\r'

/-- Model of Go strings.TrimSpace (restricted to ASCII whitespace). -/
def trimSpace (s : Str) : Str :=
  ((s.dropWhile isSpaceChar).reverse.dropWhile isSpaceChar).reverse

/-- Test whether pat is an initial segment of s. -/
def startsWithStr : Str → Str → Bool
  | _, [] => true
  | [], _ :: _ => false
  | c :: s, d :: p => c = d && startsWithStr s p

/-- Test whether pat occurs as a contiguous substring of s. -/
def containsSub (pat : Str) : Str → Bool
  | [] => pat.isEmpty
  | c :: rest => startsWithStr (c :: rest) pat || containsSub pat rest

/-- Numeric value of a decimal digit string (digits assumed checked). -/
def natOfDigits (s : Str) : Nat :=
  s.foldl (fun acc c => acc * 10 + (c.toNat - 48)) 0

/-- Model of Go strconv.Atoi: optional sign followed by one or more
decimal digits (machine-size overflow is not modelled). -/
def atoiGo (s : Str) : Option Int :=
  match s with
  | [] => none
  | '+' :: rest =>
    if rest ≠ [] ∧ rest.all Char.isDigit then some (natOfDigits rest) else none
  | '-' :: rest =>
    if rest ≠ [] ∧ rest.all Char.isDigit then some (-(natOfDigits rest : Int)) else none
  | _ => if s.all Char.isDigit then some (natOfDigits s) else none

/-- One dotted-quad field of an IPv4 literal: 1 to 3 decimal digits,
value at most 255, no leading zero (as in Go since 1.17). -/
def isIPv4Field (f : Str) : Bool :=
  f ≠ [] && f.length ≤ 3 && f.all Char.isDigit &&
    (f.head? ≠ some '0' || f.length = 1) && natOfDigits f ≤ 255

/-- Model of the IPv4 branch of Go net.ParseIP. -/
def isIPv4 (s : Str) : Bool :=
  let fields := splitOnChar '.' s
  fields.length = 4 && fields.all isIPv4Field

/-- Hexadecimal digit test. -/
def isHexDigitChar (c : Char) : Bool :=
  c.isDigit || (97 ≤ c.toNat && c.toNat ≤ 102) || (65 ≤ c.toNat && c.toNat ≤ 70)

/-- One 16-bit group of an IPv6 literal. -/
def isIPv6Group (g : Str) : Bool :=
  g ≠ [] && g.length ≤ 4 && g.all isHexDigitChar

/-- Model of the IPv6 branch of Go net.ParseIP, simplified: groups of at
most four hex digits separated by colons, at most one zero-compression
run, an optional embedded IPv4 tail. -/
def isIPv6 (s : Str) : Bool :=
  s ≠ [] &&
    (let gs := splitOnChar ':' s
     gs.length ≤ 9 &&
       (gs.filter (fun g => g.isEmpty)).length ≤ 3 &&
       gs.all (fun g => g.isEmpty || isIPv6Group g || isIPv4 g))

/-- First occurrence of a dot or a colon, used by the ParseIP dispatch. -/
def firstSepChar : Str → Option Char
  | [] => none
  | c :: rest => if c = '.' ∨ c = ':' then some c else firstSepChar rest

/-- Model of Go net.ParseIP viewed as a validity test: the first dot or
colon selects the IPv4 or IPv6 parser, anything else is invalid. -/
def parseIPValid (s : Str) : Bool :=
  match firstSepChar s with
  | some '.' => isIPv4 s
  | some ':' => isIPv6 s
  | _ => false

/-- Index of the last occurrence of a character. -/
def lastIndexOfChar (c : Char) (s : Str) : Option Nat :=
  (List.range s.length).foldl
    (fun acc i => if s.get? i = some c then some i else acc) none

/-- Membership test on characters. -/
def containsChar (s : Str) (c : Char) : Bool :=
  s.any (fun d => d = c)

/-- Model of Go net.SplitHostPort: split at the last colon, with the
bracketed form for IPv6 hosts; none models the error return. -/
def splitHostPort (s : Str) : Option (Str × Str) :=
  match lastIndexOfChar ':' s with
  | none => none
  | some i =>
    if s.head? = some '[' then
      match lastIndexOfChar ']' s with
      | none => none
      | some e =>
        if e + 1 = s.length then none
        else if e + 1 = i then
          let host := (s.take e).drop 1
          let port := s.drop (i + 1)
          if containsChar (s.drop 1) '[' || containsChar (s.drop (e + 1)) ']' then none
          else some (host, port)
        else none
    else
      let host := s.take i
      let port := s.drop (i + 1)
      if containsChar host ':' || containsChar s '[' || containsChar s ']' then none
      else some (host, port)

/-! ## Request classifier (internal/ratelimit/utils.go) -/

/-- Part of the path before the first question mark. -/
def stripQuery (p : Str) : Str :=
  p.takeWhile (fun c => c ≠ '?')

/-- Remove a single trailing slash from paths longer than one character. -/
def stripTrailingSlash (p : Str) : Str :=
  if 1 < p.length ∧ p.getLast? = some '/' then p.dropLast else p

/-- Part of the string strictly after its first slash, or empty when no
slash occurs. -/
def afterFirstSlash (r : Str) : Str :=
  (r.dropWhile fun c => decide (c ≠ '/')).drop 1

/-- Match of the Go regular expression with a literal route head, of
the shape ˆ/NAME/[ˆ/]+(/.*)?$, under RE2 semantics: the leaf segment
[ˆ/]+ is nonempty and may contain any character but a slash (a negated
class does match a newline), it ends at the first slash after the head,
and the optional /.* tail must then reach the end of the text - so it
may contain further slashes but no newline, since the dot excludes
newlines and the anchor is end-of-text. -/
def routePatMatch (head p : Str) : Bool :=
  startsWithStr p head &&
    (let r := p.drop head.length
     !r.isEmpty && r.head? ≠ some '/' && !containsChar (afterFirstSlash r) '\n')

def categoriesHead : Str := str "/categories/"
def itemsHead : Str := str "/items/"
def usersHead : Str := str "/users/"
def sitesHead : Str := str "/sites/"

/-- NormalizePath from internal/ratelimit/utils.go: strip the query,
strip one trailing slash, then collapse the four known route patterns;
everything else is returned as stripped.  The regular expressions of the
source are case-sensitive and no lowercasing is performed. -/
def NormalizePath (path : Str) : Str :=
  let p1 := stripQuery path
  let p2 := stripTrailingSlash p1
  if routePatMatch categoriesHead p2 then str "/categories/*"
  else if routePatMatch itemsHead p2 then str "/items/*"
  else if routePatMatch usersHead p2 then str "/users/*"
  else if routePatMatch sitesHead p2 then str "/sites/*"
  else p2

/-- The four known route heads in the order the source tests them. -/
def knownRouteHeads : List Str := [categoriesHead, itemsHead, usersHead, sitesHead]

/-- ASCII lowercase map, the relevant fragment of Go strings.ToLower. -/
def toLowerStr (s : Str) : Str := s.map Char.toLower

/-- The route normalisation exactly as claim C4 words it: strip query,
strip trailing slash, lowercase, then collapse known route heads. -/
def normalizeRouteClaimed (path : Str) : Str :=
  let p := toLowerStr (stripTrailingSlash (stripQuery path))
  match knownRouteHeads.find? (fun head => routePatMatch head p) with
  | some head => head ++ ['*']
  | none => p

/-- The route normalisation with the lowercasing step removed; this is
the amended form of claim C4. -/
def normalizeRouteAmended (path : Str) : Str :=
  let p := stripTrailingSlash (stripQuery path)
  match knownRouteHeads.find? (fun head => routePatMatch head p) with
  | some head => head ++ ['*']
  | none => p

/-! ## Sliding-window quota scripts (internal/ratelimit/redis.go and
internal/ratelimit/cluster.go)

A bucket is a Redis sorted set whose members are the string forms of the
inserted timestamps; since the scripts use the timestamp both as score
and as member, a bucket is modelled as a list of distinct integers. -/

/-- ZREMRANGEBYSCORE key -inf bound: drop every member whose score is
less than or equal to the bound (the Redis range is inclusive). -/
def zsetEvictUpTo (bucket : List Int) (bound : Int) : List Int :=
  bucket.filter (fun m => decide (bound < m))

/-- ZADD key now now: sorted-set members are unique, so adding an
already-present member leaves the set unchanged. -/
def zsetAdd (bucket : List Int) (member : Int) : List Int :=
  if member ∈ bucket then bucket else bucket ++ [member]

/-- Reply of one atomic sliding-window check: the bucket after the call
and the two-element Lua reply. -/
structure ScriptReply where
  bucket : List Int
  admitted : Int
  remaining : Int
deriving DecidableEq

/-- Shared body of the two Lua scripts: evict up to the bound, count,
then admit and insert when the count is below the limit. -/
def slidingWindowCore (bucket : List Int) (evictBound limit now : Int) : ScriptReply :=
  let pruned := zsetEvictUpTo bucket evictBound
  let current : Int := pruned.length
  if current < limit then
    { bucket := zsetAdd pruned now, admitted := 1, remaining := limit - current - 1 }
  else
    { bucket := pruned, admitted := 0, remaining := 0 }

/-- slidingWindowScript of redis.go: the window argument is in seconds
and the eviction bound is now - window * 1000. -/
def slidingWindowScript (bucket : List Int) (window limit now : Int) : ScriptReply :=
  slidingWindowCore bucket (now - window * 1000) limit now

/-- luaScript of cluster.go: the window argument is in milliseconds and
the eviction bound is now - window. -/
def clusterLuaScript (bucket : List Int) (window limit now : Int) : ScriptReply :=
  slidingWindowCore bucket (now - window) limit now

/-- Claim C1 as stated: eviction removes only members strictly below
now - window, and an admit always grows the cardinality by exactly one
because the inserted member is claimed to carry a unique payload. -/
def c1ClaimHolds (bucket : List Int) (window limit now : Int) : Prop :=
  0 < limit →
    (let reply := clusterLuaScript bucket window limit now
     let kept := bucket.filter (fun m => decide (now - window ≤ m))
     let c : Int := kept.length
     if c < limit then
       reply.bucket.length = kept.length + 1 ∧ reply.admitted = 1 ∧
         reply.remaining = limit - c - 1
     else
       reply.bucket = kept ∧ reply.admitted = 0 ∧ reply.remaining = 0)

/-! ## Limit coordination (redis.go CheckMultipleLimits and the
RateLimitMiddleware handler) -/

/-- Outcome of one dimension check as seen by the coordinator: either a
store error or a verdict with the remaining budget. -/
inductive CheckOutcome where
  | storeError : CheckOutcome
  | verdict (allowed : Bool) (remaining : Int) : CheckOutcome
deriving DecidableEq

/-- True for a successful check that denied. -/
def isDenyOutcome : CheckOutcome → Bool
  | CheckOutcome.verdict false _ => true
  | _ => false

/-- True for a store error. -/
def isErrOutcome : CheckOutcome → Bool
  | CheckOutcome.storeError => true
  | _ => false

/-- RedisLimiter.CheckMultipleLimits: the checks run one at a time and
the first store error aborts the whole call, discarding every verdict
already computed; none models the error return. -/
def CheckMultipleLimits : List (Str × CheckOutcome) → Option (List (Str × Bool × Int))
  | [] => some []
  | (_, CheckOutcome.storeError) :: _ => none
  | (k, CheckOutcome.verdict a r) :: rest =>
    match CheckMultipleLimits rest with
    | none => none
    | some acc => some ((k, a, r) :: acc)

/-- The results CheckMultipleLimits returns when no check errs, keyed
in iteration order. -/
def verdictResults (checks : List (Str × CheckOutcome)) : List (Str × Bool × Int) :=
  checks.filterMap fun x =>
    match x.2 with
    | CheckOutcome.verdict a r => some (x.1, a, r)
    | CheckOutcome.storeError => none

/-- Final decision of the rate-limit middleware for one request. -/
inductive FinalDecision where
  | forwarded : FinalDecision
  | denied (dim : Str) : FinalDecision
deriving DecidableEq

/-- True when the decision is a 429 denial. -/
def FinalDecision.isDenied : FinalDecision → Bool
  | FinalDecision.denied _ => true
  | _ => false

/-- The result loop of the handler: the first result with allowed = false
(in iteration order) triggers the denial and names the dimension. -/
def firstDenied : List (Str × Bool × Int) → Option Str
  | [] => none
  | (k, allowed, _) :: rest => if allowed then firstDenied rest else some k

/-- RateLimitMiddleware.Handler verdict logic: a failed
CheckMultipleLimits call fails open, otherwise the first denying
dimension in iteration order produces a 429.  The iteration order of
the Go map is carried explicitly by the list order. -/
def rateLimitHandler (checks : List (Str × CheckOutcome)) : FinalDecision :=
  match CheckMultipleLimits checks with
  | none => FinalDecision.forwarded
  | some results =>
    match firstDenied results with
    | some dim => FinalDecision.denied dim
    | none => FinalDecision.forwarded

/-- Claim C2 as stated, for one assignment of outcomes to the three
dimensions: all-error yields fail-open admit, and any deny yields a
denial even when other dimensions erred. -/
def c2ClaimHolds (o1 o2 o3 : CheckOutcome) : Prop :=
  let checks := [(str "ip", o1), (str "path", o2), (str "ip_path", o3)]
  ((checks.all fun x => isErrOutcome x.2) = true →
      rateLimitHandler checks = FinalDecision.forwarded) ∧
  ((checks.any fun x => isDenyOutcome x.2) = true →
      (rateLimitHandler checks).isDenied = true)

/-- Claim C5 as stated: the denying dimension the handler reports is a
pure function of the multiset of per-dimension results, independent of
the iteration order of the results map. -/
def c5ClaimHolds : Prop :=
  ∀ l1 l2 : List (Str × Bool × Int), l1.Perm l2 → firstDenied l1 = firstDenied l2

/-! ## HTTP responses (middleware and proxy error paths) -/

/-- The observable part of one HTTP response. -/
structure HttpResponse where
  status : Nat
  headers : List (Str × Str)
  body : Str

/-- Decimal rendering used for header values. -/
def intToStr (i : Int) : Str := (toString i).data

/-- True when a header with the given name was set on the response. -/
def hasHeader (resp : HttpResponse) (name : Str) : Bool :=
  resp.headers.any (fun h => decide (h.1 = name))

/-- Value of the first header with the given name, if any. -/
def getHeader (resp : HttpResponse) (name : Str) : Option Str :=
  (resp.headers.find? (fun h => decide (h.1 = name))).map Prod.snd

/-- The fixed JSON body of a 429 denial. -/
def rateLimitExceededBody : Str :=
  str "\x7b\"error\":\"rate_limit_exceeded\",\"message\":\"Too many requests\"\x7d"

/-- RateLimitMiddleware.writeRateLimitResponse: Content-Type,
X-RateLimit-Remaining and X-RateLimit-Reset headers, status 429, and
the fixed JSON body. -/
def writeRateLimitResponse (remaining resetUnix : Int) : HttpResponse :=
  { status := 429,
    headers := [(str "Content-Type", str "application/json"),
                (str "X-RateLimit-Remaining", intToStr remaining),
                (str "X-RateLimit-Reset", intToStr resetUnix)],
    body := rateLimitExceededBody }

/-- Claim C3 as stated: the denial carries all three X-RateLimit
headers plus a Retry-After of at least one second, with the JSON body. -/
def c3ClaimHolds : Prop :=
  ∀ remaining resetUnix : Int,
    let resp := writeRateLimitResponse remaining resetUnix
    resp.status = 429 ∧
    hasHeader resp (str "X-RateLimit-Limit") = true ∧
    hasHeader resp (str "X-RateLimit-Remaining") = true ∧
    hasHeader resp (str "X-RateLimit-Reset") = true ∧
    (match getHeader resp (str "Retry-After") with
     | some v => match atoiGo v with
       | some n => 1 ≤ n
       | none => False
     | none => False) ∧
    resp.body = rateLimitExceededBody

/-- The fixed JSON body of an upstream failure. -/
def serviceUnavailableBody : Str :=
  str "\x7b\"error\":\"service_unavailable\",\"message\":\"Upstream service error\"\x7d"

/-- Result of one upstream round trip as the proxy sees it. -/
inductive UpstreamResult where
  | ok (status : Nat) (headers : List (Str × Str)) (body : Str) : UpstreamResult
  | transportError : UpstreamResult

/-- Set a header, replacing any previous value (Go http.Header.Set). -/
def setHeader (hs : List (Str × Str)) (name value : Str) : List (Str × Str) :=
  hs.filter (fun h => decide (h.1 ≠ name)) ++ [(name, value)]

/-- ModifyResponse of the reverse proxy: cache-defeating headers plus
the proxy identification header on every forwarded response. -/
def modifyResponseHeaders (hs : List (Str × Str)) : List (Str × Str) :=
  setHeader
    (setHeader
      (setHeader
        (setHeader hs (str "Cache-Control") (str "no-cache, no-store, must-revalidate"))
        (str "Pragma") (str "no-cache"))
      (str "Expires") (str "0"))
    (str "X-Proxy-By") (str "meli-proxy")

/-- The ErrorHandler installed on httputil.ReverseProxy in NewServer:
status 502 and the fixed JSON body. -/
def proxyErrorHandlerResponse : HttpResponse :=
  { status := 502, headers := [], body := serviceUnavailableBody }

/-- Response of the main proxied path as a function of the upstream
round-trip result. -/
def reverseProxyRespond : UpstreamResult → HttpResponse
  | UpstreamResult.ok s hs b => { status := s, headers := modifyResponseHeaders hs, body := b }
  | UpstreamResult.transportError => proxyErrorHandlerResponse

/-- Model of Go http.Error: plain-text content type, the message plus a
newline as body. -/
def httpError (msg : Str) (code : Nat) : HttpResponse :=
  { status := code,
    headers := [(str "Content-Type", str "text/plain; charset=utf-8"),
                (str "X-Content-Type-Options", str "nosniff")],
    body := msg ++ ['\n'] }

/-- Server.ServeNoRateLimit response as a function of the upstream
round-trip result: transport errors answer with http.Error 502
Bad Gateway, successes are copied through. -/
def ServeNoRateLimit : UpstreamResult → HttpResponse
  | UpstreamResult.ok s hs b => { status := s, headers := hs, body := b }
  | UpstreamResult.transportError => httpError (str "Bad Gateway") 502

/-- Claim C7 as stated: both the main path and the bypass path answer
upstream transport errors with 502 and the fixed JSON body. -/
def c7ClaimHolds : Prop :=
  (reverseProxyRespond UpstreamResult.transportError).status = 502 ∧
  (reverseProxyRespond UpstreamResult.transportError).body = serviceUnavailableBody ∧
  (ServeNoRateLimit UpstreamResult.transportError).status = 502 ∧
  (ServeNoRateLimit UpstreamResult.transportError).body = serviceUnavailableBody

/-! ## Bucket keys and cluster hash tags (redis.go and cluster.go) -/

def IPKey (ip : Str) : Str := str "ip::" ++ ip

def PathKey (path : Str) : Str := str "path::" ++ path

def IPPathKey (ip path : Str) : Str := str "ip_path::" ++ ip ++ str "::" ++ path

/-- The opening brace character. -/
def lbrace : Char := Char.ofNat 123

/-- The closing brace character. -/
def rbrace : Char := Char.ofNat 125

/-- ClusterLimiter.addHashTag: split the key on single colons, take the
first field as the base and prepend it in braces. -/
def addHashTag (key : Str) : Str :=
  match splitOnChar ':' key with
  | [] => key
  | base :: _ => (lbrace :: base) ++ (rbrace :: ':' :: key)

/-- The hash tag Redis Cluster extracts from a key: the run between the
first opening brace and the following closing brace. -/
def hashTagOf (key : Str) : Str :=
  ((key.dropWhile (fun c => decide (c ≠ lbrace))).drop 1).takeWhile
    (fun c => decide (c ≠ rbrace))

/-! ## Source extraction (internal/ratelimit/utils.go ExtractIP) -/

/-- The parts of an inbound request that source extraction consults.
Absent headers are the empty string, as Go Header.Get returns. -/
structure GoRequest where
  xForwardedFor : Str
  xRealIP : Str
  remoteAddr : Str

/-- Steps 2 and 3 of ExtractIP: X-Real-IP when nonempty and valid, else
the host part of RemoteAddr, or RemoteAddr itself when it cannot be
split into host and port. -/
def extractIPFallback (r : GoRequest) : Str :=
  if r.xRealIP ≠ [] ∧ parseIPValid r.xRealIP then r.xRealIP
  else
    match splitHostPort r.remoteAddr with
    | none => r.remoteAddr
    | some hp => hp.1

/-- ExtractIP: the trimmed first comma-separated X-Forwarded-For entry
when the header is nonempty and that entry parses as an IP, then the
fallback chain.  Only the first entry is ever tested. -/
def ExtractIP (r : GoRequest) : Str :=
  if r.xForwardedFor ≠ [] then
    match splitOnChar ',' r.xForwardedFor with
    | [] => extractIPFallback r
    | p :: _ =>
      let ip := trimSpace p
      if parseIPValid ip then ip else extractIPFallback r
  else extractIPFallback r

/-- First comma-separated entry (trimmed) that parses as an IP, the scan
claim C8 describes. -/
def firstValidXFFEntry : List Str → Option Str
  | [] => none
  | e :: rest =>
    let ip := trimSpace e
    if parseIPValid ip then some ip else firstValidXFFEntry rest

/-- Source extraction exactly as claim C8 words it: scan the forwarding
header past invalid entries, then the fallback chain. -/
def extractSourceClaimed (r : GoRequest) : Str :=
  match firstValidXFFEntry (splitOnChar ',' r.xForwardedFor) with
  | some ip => ip
  | none => extractIPFallback r

/-- Source extraction as amended: only the first forwarding entry is
consulted before the fallback chain. -/
def extractSourceAmended (r : GoRequest) : Str :=
  match (splitOnChar ',' r.xForwardedFor).head? with
  | some e =>
    if r.xForwardedFor ≠ [] ∧ parseIPValid (trimSpace e) then trimSpace e
    else extractIPFallback r
  | none => extractIPFallback r

/-- Claim C8 as stated. -/
def c8ClaimHolds (r : GoRequest) : Prop :=
  ExtractIP r = extractSourceClaimed r ∧ ExtractIP r ≠ []

/-- A peer address whose host part is nonempty after splitting, or
which is nonempty and cannot be split: the condition under which the
fallback of source extraction is nonempty. -/
def hostNonempty (remoteAddr : Str) : Bool :=
  match splitHostPort remoteAddr with
  | some hp => !hp.1.isEmpty
  | none => !remoteAddr.isEmpty

/-! ## Async metrics pipeline (internal/metrics collector and registry) -/

/-- One event sent to the metrics buffer. -/
structure MetricEvent where
  eventType : Str
  method : Str
  path : Str
  status : Str
  limitType : Str
  key : Str
  allowed : Bool
  remaining : Int

/-- Capacity of the buffered metrics channel. -/
def metricsBufferCapacity : Nat := 10000

/-- Names of every Prometheus metric family the process registers. -/
def registeredMetricNames : List Str :=
  [str "meli_proxy_requests_total",
   str "meli_proxy_rate_limit_blocked_total",
   str "meli_proxy_request_duration_seconds",
   str "meli_proxy_requests_in_progress",
   str "meli_proxy_requests_per_second"]

/-- State of the async collector visible to the producers: the channel
content, the process-wide counter registry (one total per registered
family) and the number of warning log lines emitted. -/
structure CollectorState where
  buffer : List MetricEvent
  counters : Str → Nat
  warnLogs : Nat

/-- AsyncCollector.RecordRequestAsync: a non-blocking channel send; on a
full buffer the event is dropped and a warning is logged, and no
counter of any kind is touched. -/
def RecordRequestAsync (st : CollectorState) (e : MetricEvent) : CollectorState :=
  if st.buffer.length < metricsBufferCapacity then
    { st with buffer := st.buffer ++ [e] }
  else
    { st with warnLogs := st.warnLogs + 1 }

/-- AsyncCollector.RecordRateLimitAsync: same non-blocking send and
same silent drop on a full buffer. -/
def RecordRateLimitAsync (st : CollectorState) (e : MetricEvent) : CollectorState :=
  if st.buffer.length < metricsBufferCapacity then
    { st with buffer := st.buffer ++ [e] }
  else
    { st with warnLogs := st.warnLogs + 1 }

/-- A placeholder event for concrete states. -/
def emptyEvent : MetricEvent :=
  { eventType := [], method := [], path := [], status := [],
    limitType := [], key := [], allowed := true, remaining := 0 }

/-- A collector state whose buffer is exactly full. -/
def fullBufferState : CollectorState :=
  { buffer := List.replicate metricsBufferCapacity emptyEvent,
    counters := fun _ => 0, warnLogs := 0 }

/-- Claim C9 as stated: on a full queue the producers leave the queue
unchanged, drop the event, and increment a dedicated dropped-events
counter (so the counter registry must change). -/
def c9ClaimHolds : Prop :=
  ∀ (st : CollectorState) (e : MetricEvent),
    metricsBufferCapacity ≤ st.buffer.length →
      (RecordRequestAsync st e).buffer = st.buffer ∧
      (RecordRequestAsync st e).counters ≠ st.counters

/-! ## Override parsing and limit construction (config and middleware) -/

/-- Association-list lookup, the model of a Go map read. -/
def lookupAssoc {α : Type} (l : List (Str × α)) (k : Str) : Option α :=
  (l.find? (fun kv => decide (kv.1 = k))).map Prod.snd

/-- Association-list write, the model of a Go map write (replacing). -/
def insertAssoc {α : Type} (l : List (Str × α)) (k : Str) (v : α) : List (Str × α) :=
  l.filter (fun kv => decide (kv.1 ≠ k)) ++ [(k, v)]

/-- Loop body of parseRateLimitMap: one comma-separated entry is kept
only when it splits on a colon into exactly two fields whose second
field parses as an integer. -/
def parsePair (result : List (Str × Int)) (pair : Str) : List (Str × Int) :=
  if h : (splitOnChar ':' (trimSpace pair)).length = 2 then
    match atoiGo (trimSpace ((splitOnChar ':' (trimSpace pair)).get ⟨1, by omega⟩)) with
    | some limit =>
      insertAssoc result
        (trimSpace ((splitOnChar ':' (trimSpace pair)).get ⟨0, by omega⟩)) limit
    | none => result
  else result

/-- parseRateLimitMap from the config package. -/
def parseRateLimitMap (input : Str) : List (Str × Int) :=
  if input = [] then []
  else (splitOnChar ',' input).foldl parsePair []

/-- Limit and window for one dimension as the middleware builds them. -/
structure LimitConfig where
  limit : Int
  windowSeconds : Int
deriving DecidableEq

/-- RateLimitMiddleware.buildLimitConfigs: per-dimension limits with a
sixty-second window; each dimension takes its override when the exact
key is present, else the default, with the ip-path default halved. -/
def buildLimitConfigs (defaultRPS : Int)
    (ipOverrides pathOverrides ipPathOverrides : List (Str × Int))
    (ip path : Str) : List (Str × LimitConfig) :=
  let ipLimit :=
    match lookupAssoc ipOverrides ip with
    | some l => l
    | none => defaultRPS
  let pathLimit :=
    match lookupAssoc pathOverrides path with
    | some l => l
    | none => defaultRPS
  let ipPathKey := ip ++ str "::" ++ path
  let ipPathLimit :=
    match lookupAssoc ipPathOverrides ipPathKey with
    | some l => l
    | none => Int.tdiv defaultRPS 2
  [(str "ip", { limit := ipLimit, windowSeconds := 60 }),
   (str "path", { limit := pathLimit, windowSeconds := 60 }),
   (str "ip_path", { limit := ipPathLimit, windowSeconds := 60 })]

/-! ## Helper lemmas -/

lemma splitOnChar_ne_nil (sep : Char) (s : Str) : splitOnChar sep s ≠ [] := by
  induction s with
  | nil => simp [splitOnChar]
  | cons c rest ih =>
    simp only [splitOnChar]
    by_cases h : c = sep
    · simp [h]
    · simp only [if_neg h]
      cases hr : splitOnChar sep rest with
      | nil => simp
      | cons p ps => simp

lemma not_sep_of_mem_splitOnChar (sep : Char) (s part : Str)
    (hmem : part ∈ splitOnChar sep s) : sep ∉ part := by
  induction s generalizing part with
  | nil =>
    simp only [splitOnChar, List.mem_singleton] at hmem
    subst hmem
    simp
  | cons c rest ih =>
    simp only [splitOnChar] at hmem
    by_cases h : c = sep
    · rw [if_pos h] at hmem
      rcases List.mem_cons.mp hmem with h1 | h1
      · subst h1; simp
      · exact ih part h1
    · rw [if_neg h] at hmem
      cases hr : splitOnChar sep rest with
      | nil => exact absurd hr (splitOnChar_ne_nil sep rest)
      | cons p ps =>
        rw [hr] at hmem
        rcases List.mem_cons.mp hmem with h1 | h1
        · subst h1
          intro hc
          rcases List.mem_cons.mp hc with h2 | h2
          · exact h h2.symm
          · exact ih p (by rw [hr]; exact List.mem_cons_self p ps) h2
        · exact ih part (by rw [hr]; exact List.mem_cons_of_mem p h1)

lemma mem_of_mem_trimSpace (s : Str) (c : Char) (h : c ∈ trimSpace s) : c ∈ s := by
  unfold trimSpace at h
  rw [List.mem_reverse] at h
  have h1 := List.Sublist.mem h (List.dropWhile_sublist isSpaceChar)
  rw [List.mem_reverse] at h1
  exact List.Sublist.mem h1 (List.dropWhile_sublist isSpaceChar)

lemma parseIPValid_ne_nil (s : Str) (h : parseIPValid s = true) : s ≠ [] := by
  intro hnil
  subst hnil
  simp [parseIPValid, firstSepChar] at h

lemma cml_none_of_err (checks : List (Str × CheckOutcome))
    (h : ∃ x ∈ checks, isErrOutcome x.2 = true) :
    CheckMultipleLimits checks = none := by
  induction checks with
  | nil => obtain ⟨x, hx, _⟩ := h; cases hx
  | cons hd rest ih =>
    obtain ⟨k, o⟩ := hd
    cases o with
    | storeError => rfl
    | verdict a r =>
      have hrest : CheckMultipleLimits rest = none := by
        apply ih
        obtain ⟨x, hx, herr⟩ := h
        rcases List.mem_cons.mp hx with h1 | h1
        · subst h1; simp [isErrOutcome] at herr
        · exact ⟨x, h1, herr⟩
      simp [CheckMultipleLimits, hrest]

lemma cml_some_of_no_err (checks : List (Str × CheckOutcome))
    (h : ∀ x ∈ checks, isErrOutcome x.2 = false) :
    CheckMultipleLimits checks = some (verdictResults checks) := by
  induction checks with
  | nil => rfl
  | cons hd rest ih =>
    obtain ⟨k, o⟩ := hd
    cases o with
    | storeError =>
      have := h (k, CheckOutcome.storeError) (List.mem_cons_self _ _)
      simp [isErrOutcome] at this
    | verdict a r =>
      have hrest := ih fun x hx => h x (List.mem_cons_of_mem _ hx)
      simp [CheckMultipleLimits, hrest, verdictResults]

lemma firstDenied_eq_none_iff (l : List (Str × Bool × Int)) :
    firstDenied l = none ↔ ∀ x ∈ l, x.2.1 = true := by
  induction l with
  | nil => simp [firstDenied]
  | cons hd rest ih =>
    obtain ⟨k, a, r⟩ := hd
    cases a <;> simp [firstDenied, ih]

lemma firstDenied_some_mem (l : List (Str × Bool × Int)) (d : Str)
    (h : firstDenied l = some d) : ∃ r, (d, false, r) ∈ l := by
  induction l with
  | nil => simp [firstDenied] at h
  | cons hd rest ih =>
    obtain ⟨k, a, r⟩ := hd
    cases a with
    | false =>
      simp only [firstDenied, if_neg (Bool.false_ne_true)] at h
      rw [Option.some_inj] at h
      subst h
      exact ⟨r, List.mem_cons_self _ _⟩
    | true =>
      simp only [firstDenied, if_pos rfl] at h
      obtain ⟨r2, hr2⟩ := ih h
      exact ⟨r2, List.mem_cons_of_mem _ hr2⟩

lemma handler_forwarded_of_err (checks : List (Str × CheckOutcome))
    (h : ∃ x ∈ checks, isErrOutcome x.2 = true) :
    rateLimitHandler checks = FinalDecision.forwarded := by
  unfold rateLimitHandler
  rw [cml_none_of_err checks h]

lemma handler_denied_iff (checks : List (Str × CheckOutcome))
    (h : ∀ x ∈ checks, isErrOutcome x.2 = false) :
    (rateLimitHandler checks).isDenied = true ↔
      ∃ x ∈ checks, isDenyOutcome x.2 = true := by
  have hh : rateLimitHandler checks =
      (match firstDenied (verdictResults checks) with
       | some dim => FinalDecision.denied dim
       | none => FinalDecision.forwarded) := by
    unfold rateLimitHandler
    rw [cml_some_of_no_err checks h]
  cases hfd : firstDenied (verdictResults checks) with
  | none =>
    rw [hfd] at hh
    rw [hh]
    constructor
    · intro hfalse
      simp [FinalDecision.isDenied] at hfalse
    · rintro ⟨x, hx, hdeny⟩
      exfalso
      obtain ⟨k, o⟩ := x
      cases o with
      | storeError => simp [isDenyOutcome] at hdeny
      | verdict a r =>
        cases a with
        | true => simp [isDenyOutcome] at hdeny
        | false =>
          have hmem : (k, false, r) ∈ verdictResults checks := by
            rw [verdictResults, List.mem_filterMap]
            exact ⟨(k, CheckOutcome.verdict false r), hx, rfl⟩
          have := (firstDenied_eq_none_iff (verdictResults checks)).mp hfd _ hmem
          simp at this
  | some d =>
    rw [hfd] at hh
    rw [hh]
    constructor
    · intro _
      obtain ⟨r, hmem⟩ := firstDenied_some_mem _ _ hfd
      rw [verdictResults, List.mem_filterMap] at hmem
      obtain ⟨x, hx, hpr⟩ := hmem
      refine ⟨x, hx, ?_⟩
      obtain ⟨k, o⟩ := x
      cases o with
      | storeError => simp at hpr
      | verdict a r2 =>
        simp only [Option.some_inj, Prod.mk.injEq] at hpr
        obtain ⟨-, ha, -⟩ := hpr
        subst ha
        rfl
    · intro _
      rfl

lemma recordRequestAsync_counters (st : CollectorState) (e : MetricEvent) :
    (RecordRequestAsync st e).counters = st.counters := by
  unfold RecordRequestAsync
  split <;> rfl

lemma recordRateLimitAsync_counters (st : CollectorState) (e : MetricEvent) :
    (RecordRateLimitAsync st e).counters = st.counters := by
  unfold RecordRateLimitAsync
  split <;> rfl

/-! ## Claim C4: route normalisation -/

/-- C4: the claim as stated is false, because NormalizePath never
lowercases: a mixed-case path under a known route head is returned
unchanged, while the claimed reference collapses it. -/
theorem c4_counterexample :
    NormalizePath (str "/Items/MLA123") ≠ normalizeRouteClaimed (str "/Items/MLA123") := by
  decide

/-- C4 (amended): NormalizePath equals the claimed reference with the
lowercasing step removed - strip the query, strip one trailing slash,
collapse a path on one of the four known route heads exactly when it
matches the case-sensitive RE2 pattern (nonempty leaf segment, and no
newline in the tail after the slash that follows the leaf), and return
any other path as stripped. -/
theorem c4_amended (p : Str) : NormalizePath p = normalizeRouteAmended p := by
  unfold NormalizePath normalizeRouteAmended knownRouteHeads
  simp only [List.find?]
  cases h1 : routePatMatch categoriesHead (stripTrailingSlash (stripQuery p)) <;>
    cases h2 : routePatMatch itemsHead (stripTrailingSlash (stripQuery p)) <;>
      cases h3 : routePatMatch usersHead (stripTrailingSlash (stripQuery p)) <;>
        cases h4 : routePatMatch sitesHead (stripTrailingSlash (stripQuery p)) <;>
          simp [h1, h2, h3, h4] <;> decide

/-! ## Claim C7: upstream transport errors -/

/-- C7: the claim as stated is false, because the bypass path answers a
transport error with the plain-text http.Error body Bad Gateway, not
the JSON body the main path uses. -/
theorem c7_counterexample : ¬ c7ClaimHolds := by
  unfold c7ClaimHolds
  decide

/-- C7 (amended): both paths answer upstream transport errors with 502,
but only the main proxied path carries the fixed JSON body; the bypass
path answers with the plain-text body Bad Gateway. -/
theorem c7_amended :
    (reverseProxyRespond UpstreamResult.transportError).status = 502 ∧
    (reverseProxyRespond UpstreamResult.transportError).body = serviceUnavailableBody ∧
    (ServeNoRateLimit UpstreamResult.transportError).status = 502 ∧
    (ServeNoRateLimit UpstreamResult.transportError).body = str "Bad Gateway" ++ ['\n'] := by
  decide

/-! ## Claim C6: cluster hash tags -/

/-- C6: evaluation of addHashTag on the three dimension keys of one
caller: the tag is the literal key kind (ip, path, ip_path), shared by
every caller and different across the three keys of one caller, so the
keys do not co-locate on one shard as the comments in the code assert. -/
theorem c6_code_eval :
    addHashTag (IPKey (str "1.2.3.4")) = str "\x7bip\x7d:ip::1.2.3.4" ∧
    addHashTag (PathKey (str "/items/*")) = str "\x7bpath\x7d:path::/items/*" ∧
    addHashTag (IPPathKey (str "1.2.3.4") (str "/items/*")) =
      str "\x7bip_path\x7d:ip_path::1.2.3.4::/items/*" ∧
    hashTagOf (addHashTag (IPKey (str "1.2.3.4"))) = str "ip" ∧
    hashTagOf (addHashTag (PathKey (str "/items/*"))) = str "path" ∧
    hashTagOf (addHashTag (IPKey (str "1.2.3.4"))) ≠
      hashTagOf (addHashTag (IPPathKey (str "1.2.3.4") (str "/items/*"))) := by
  decide

/-! ## Claim C3: the 429 denial response -/

/-- C3: the claim as stated is false: the denial response carries no
X-RateLimit-Limit header (and no Retry-After header at all). -/
theorem c3_counterexample : ¬ c3ClaimHolds := by
  intro h
  have h2 := (h 0 0).2.1
  revert h2
  decide

/-- C3 (amended): the denial response has status 429, carries
Content-Type, X-RateLimit-Remaining and X-RateLimit-Reset, carries
neither X-RateLimit-Limit nor Retry-After, and its body is exactly the
fixed JSON error document. -/
theorem c3_amended (remaining resetUnix : Int) :
    (writeRateLimitResponse remaining resetUnix).status = 429 ∧
    hasHeader (writeRateLimitResponse remaining resetUnix) (str "Content-Type") = true ∧
    hasHeader (writeRateLimitResponse remaining resetUnix) (str "X-RateLimit-Remaining") = true ∧
    hasHeader (writeRateLimitResponse remaining resetUnix) (str "X-RateLimit-Reset") = true ∧
    hasHeader (writeRateLimitResponse remaining resetUnix) (str "X-RateLimit-Limit") = false ∧
    hasHeader (writeRateLimitResponse remaining resetUnix) (str "Retry-After") = false ∧
    (writeRateLimitResponse remaining resetUnix).body = rateLimitExceededBody := by
  refine ⟨rfl, ?_, ?_, ?_, ?_, ?_, rfl⟩ <;>
    simp [hasHeader, writeRateLimitResponse] <;> decide

/-! ## Claim C1: the sliding-window script -/

/-- C1: the claim as stated is false: on the bucket [5] with window 10,
limit 2 and now 5, the script admits but the cardinality stays 1
instead of growing to 2, because the inserted member is the timestamp
itself and a member with the same timestamp is already present. -/
theorem c1_counterexample : ¬ c1ClaimHolds [5] 10 2 5 := by
  unfold c1ClaimHolds
  decide

/-- C1 (amended): the script evicts members with score at most
now - window (the Redis range bound is inclusive), admits exactly when
the remaining cardinality is below the limit, and on admit upserts the
member now - so the cardinality grows by one only when no member with
the same timestamp survived eviction, and is unchanged otherwise; the
reply is (1, limit - c - 1) on admit and (0, 0) with an untouched
bucket on deny.  The redis.go script is the cluster script with the
window scaled from seconds to milliseconds. -/
theorem c1_amended (bucket : List Int) (window limit now : Int)
    (kept : List Int)
    (hkept : kept = bucket.filter fun m => decide (now - window < m)) :
    ((clusterLuaScript bucket window limit now).admitted = 1 ↔ (kept.length : Int) < limit) ∧
    ((kept.length : Int) < limit →
        (clusterLuaScript bucket window limit now).bucket = zsetAdd kept now ∧
        (clusterLuaScript bucket window limit now).remaining = limit - kept.length - 1 ∧
        (now ∈ kept → (clusterLuaScript bucket window limit now).bucket.length = kept.length) ∧
        (now ∉ kept →
            (clusterLuaScript bucket window limit now).bucket.length = kept.length + 1)) ∧
    (limit ≤ (kept.length : Int) →
        (clusterLuaScript bucket window limit now).bucket = kept ∧
        (clusterLuaScript bucket window limit now).admitted = 0 ∧
        (clusterLuaScript bucket window limit now).remaining = 0) ∧
    slidingWindowScript bucket window limit now =
      clusterLuaScript bucket (window * 1000) limit now := by
  have hcore : zsetEvictUpTo bucket (now - window) = kept := by
    rw [hkept]; rfl
  unfold clusterLuaScript slidingWindowScript slidingWindowCore
  rw [hcore]
  by_cases hlt : ((kept.length : Int) < limit)
  · rw [if_pos hlt]
    refine ⟨by simp [hlt], fun _ => ⟨rfl, rfl, ?_, ?_⟩, fun hge => absurd hlt (not_lt.mpr hge), ?_⟩
    · intro hmem
      simp [zsetAdd, hmem]
    · intro hmem
      simp [zsetAdd, hmem]
    · have : now - window * 1000 = now - window * 1000 := rfl
      rfl
  · rw [if_neg hlt]
    refine ⟨by simp [hlt], fun h => absurd h hlt, fun _ => ⟨rfl, rfl, rfl⟩, rfl⟩

/-- C1 (witness): a fresh timestamp is admitted into a two-element
bucket whose members all survive eviction. -/
theorem c1_amended_witness :
    (clusterLuaScript [1, 2] 10 3 7).admitted = 1 :=
  (c1_amended [1, 2] 10 3 7 ([1, 2].filter fun m => decide ((7 : Int) - 10 < m)) rfl).1.mpr
    (by decide)

/-! ## Claim C2: fail-open aggregation -/

/-- C2: the claim as stated is false: with the source dimension denying
and the route dimension erring, CheckMultipleLimits aborts with the
error, the computed denial is discarded, and the handler fails open
and forwards the request instead of denying it. -/
theorem c2_counterexample :
    ¬ c2ClaimHolds (CheckOutcome.verdict false 0) CheckOutcome.storeError
      (CheckOutcome.verdict true 5) := by
  unfold c2ClaimHolds
  decide

/-- C2 (amended): a store error on any dimension makes the coordinator
fail open and admit, discarding even already-computed denials; only
when no dimension errs does the coordinator deny, and then exactly when
some dimension denied. -/
theorem c2_amended (o1 o2 o3 : CheckOutcome) :
    ((∃ x ∈ [(str "ip", o1), (str "path", o2), (str "ip_path", o3)],
        isErrOutcome x.2 = true) →
      rateLimitHandler [(str "ip", o1), (str "path", o2), (str "ip_path", o3)] =
        FinalDecision.forwarded) ∧
    ((∀ x ∈ [(str "ip", o1), (str "path", o2), (str "ip_path", o3)],
        isErrOutcome x.2 = false) →
      ((rateLimitHandler [(str "ip", o1), (str "path", o2), (str "ip_path", o3)]).isDenied
          = true ↔
        ∃ x ∈ [(str "ip", o1), (str "path", o2), (str "ip_path", o3)],
          isDenyOutcome x.2 = true)) :=
  ⟨handler_forwarded_of_err _, handler_denied_iff _⟩

/-! ## Claim C5: aggregation determinism -/

/-- C5: the claim as stated is false: when both the source and the
route dimension deny, the dimension the handler reports is whichever
comes first in the iteration order of the results map, so two valid
iteration orders of the same verdicts report different dimensions. -/
theorem c5_counterexample : ¬ c5ClaimHolds := by
  intro h
  have hperm : [(str "ip", false, (0 : Int)), (str "path", false, (0 : Int))].Perm
      [(str "path", false, (0 : Int)), (str "ip", false, (0 : Int))] :=
    List.Perm.swap _ _ _
  have heq := h _ _ hperm
  revert heq
  decide

/-- C5 (amended): the admit/deny decision is a pure function of the
multiset of verdicts - permuting the iteration order never changes
whether some dimension is reported - but the reported dimension itself
is only guaranteed to be one whose verdict denied, namely the first
denying one in iteration order; no fixed tie-break exists. -/
theorem c5_amended (l1 l2 : List (Str × Bool × Int)) (hperm : l1.Perm l2) :
    (firstDenied l1 = none ↔ firstDenied l2 = none) ∧
    (∀ d, firstDenied l1 = some d → ∃ r, (d, false, r) ∈ l1) := by
  constructor
  · rw [firstDenied_eq_none_iff, firstDenied_eq_none_iff]
    constructor
    · intro hall x hx
      exact hall x (hperm.mem_iff.mpr hx)
    · intro hall x hx
      exact hall x (hperm.mem_iff.mp hx)
  · intro d hd
    exact firstDenied_some_mem _ _ hd

/-- C5 (witness): the order-invariance of the admit/deny decision at a
concrete pair of iteration orders of the same two verdicts. -/
theorem c5_amended_witness :
    firstDenied [(str "ip", false, (0 : Int)), (str "path", true, (0 : Int))] = none ↔
      firstDenied [(str "path", true, (0 : Int)), (str "ip", false, (0 : Int))] = none :=
  (c5_amended _ _ (List.Perm.swap _ _ _)).1

/-! ## Claim C8: source extraction -/

/-- C8: the claim as stated is false: when the first forwarding entry
is syntactically invalid, ExtractIP does not scan to the next entry but
falls through to the peer address, so a request with header
notanip,1.2.3.4 resolves to the peer host instead of 1.2.3.4. -/
theorem c8_counterexample :
    ¬ c8ClaimHolds
      { xForwardedFor := str "notanip,1.2.3.4", xRealIP := [],
        remoteAddr := str "9.9.9.9:80" } := by
  unfold c8ClaimHolds
  decide

/-- C8 (amended): only the first comma-separated forwarding entry is
consulted (trimmed); when it does not parse the extraction falls back
to X-Real-IP (when nonempty and valid) and then to the peer address
with its port removed, or the peer address itself when it cannot be
split; the result is nonempty whenever the split peer address has a
nonempty host part (or the address is nonempty and unsplittable). -/
theorem c8_amended (r : GoRequest)
    (h : hostNonempty r.remoteAddr = true) :
    ExtractIP r = extractSourceAmended r ∧ ExtractIP r ≠ [] := by
  have hfb : extractIPFallback r ≠ [] := by
    unfold extractIPFallback
    by_cases hxri : r.xRealIP ≠ [] ∧ parseIPValid r.xRealIP = true
    · rw [if_pos hxri]
      exact hxri.1
    · rw [if_neg hxri]
      unfold hostNonempty at h
      cases hsp : splitHostPort r.remoteAddr with
      | none => rw [hsp] at h; simpa using h
      | some hp => rw [hsp] at h; simpa using h
  have hmain : ExtractIP r = extractSourceAmended r := by
    unfold ExtractIP extractSourceAmended
    by_cases hxff : r.xForwardedFor = []
    · rw [hxff]
      simp [splitOnChar]
    · obtain ⟨p, ps, hsplit⟩ :
          ∃ p ps, splitOnChar ',' r.xForwardedFor = p :: ps := by
        cases hs : splitOnChar ',' r.xForwardedFor with
        | nil => exact absurd hs (splitOnChar_ne_nil _ _)
        | cons p ps => exact ⟨p, ps, rfl⟩
      rw [if_pos hxff, hsplit]
      simp only [List.head?]
      by_cases hval : parseIPValid (trimSpace p) = true
      · simp [hval, hxff]
      · simp [hval]
  refine ⟨hmain, ?_⟩
  rw [hmain]
  unfold extractSourceAmended
  cases hh : (splitOnChar ',' r.xForwardedFor).head? with
  | none => exact hfb
  | some e =>
    show (if r.xForwardedFor ≠ [] ∧ parseIPValid (trimSpace e) = true then trimSpace e
          else extractIPFallback r) ≠ []
    by_cases hcond : r.xForwardedFor ≠ [] ∧ parseIPValid (trimSpace e) = true
    · rw [if_pos hcond]
      exact parseIPValid_ne_nil _ hcond.2
    · rw [if_neg hcond]
      exact hfb

/-- C8 (witness): a concrete request whose forwarding header is absent
resolves to the nonempty peer host. -/
theorem c8_amended_witness :
    ExtractIP { xForwardedFor := [], xRealIP := [], remoteAddr := str "10.0.0.1:8080" } ≠ [] :=
  (c8_amended
    { xForwardedFor := [], xRealIP := [], remoteAddr := str "10.0.0.1:8080" }
    (by decide)).2

/-! ## Claim C9: metrics back-pressure -/

/-- C9: the claim as stated is false: a producer facing a full buffer
drops the event and leaves the queue unchanged, but it increments no
counter of any kind - the registry is untouched, so no dedicated
dropped-events counter is incremented. -/
theorem c9_counterexample : ¬ c9ClaimHolds := by
  intro hclaim
  have h := hclaim fullBufferState emptyEvent (by simp [fullBufferState])
  exact h.2 (recordRequestAsync_counters _ _)

/-- C9 (amended): both producers are total state transformers that
never touch the counter registry; below capacity they enqueue the
event, at capacity they drop it, leave the queue unchanged and only log
a warning; and no registered metric family is a dropped-events
counter. -/
theorem c9_amended (st : CollectorState) (e : MetricEvent) :
    (RecordRequestAsync st e).counters = st.counters ∧
    (RecordRateLimitAsync st e).counters = st.counters ∧
    (st.buffer.length < metricsBufferCapacity →
        (RecordRequestAsync st e).buffer = st.buffer ++ [e] ∧
        (RecordRateLimitAsync st e).buffer = st.buffer ++ [e]) ∧
    (metricsBufferCapacity ≤ st.buffer.length →
        (RecordRequestAsync st e).buffer = st.buffer ∧
        (RecordRequestAsync st e).warnLogs = st.warnLogs + 1 ∧
        (RecordRateLimitAsync st e).buffer = st.buffer ∧
        (RecordRateLimitAsync st e).warnLogs = st.warnLogs + 1) ∧
    (∀ n ∈ registeredMetricNames, containsSub (str "dropped") n = false) := by
  refine ⟨recordRequestAsync_counters st e, recordRateLimitAsync_counters st e, ?_, ?_, by decide⟩
  · intro hlt
    unfold RecordRequestAsync RecordRateLimitAsync
    rw [if_pos hlt]
    exact ⟨rfl, rfl⟩
  · intro hge
    have hnlt := not_lt.mpr hge
    unfold RecordRequestAsync RecordRateLimitAsync
    rw [if_neg hnlt]
    exact ⟨rfl, rfl, rfl, rfl⟩

/-- C9 (witness): at a concrete full buffer the producer drops the
event, leaves the queue unchanged and logs one warning. -/
theorem c9_amended_witness :
    (RecordRequestAsync fullBufferState emptyEvent).buffer = fullBufferState.buffer ∧
    (RecordRequestAsync fullBufferState emptyEvent).warnLogs = fullBufferState.warnLogs + 1 := by
  have h := (c9_amended fullBufferState emptyEvent).2.2.2.1 (by simp [fullBufferState])
  exact ⟨h.1, h.2.1⟩

/-! ## Claim C10: the unloadable ip-path override -/

lemma parsePair_keys (result : List (Str × Int)) (pair : Str)
    (h : ∀ kv ∈ result, ':' ∉ kv.1) :
    ∀ kv ∈ parsePair result pair, ':' ∉ kv.1 := by
  intro kv hmem
  unfold parsePair at hmem
  split at hmem
  · split at hmem
    · rename_i hlen limit hat
      unfold insertAssoc at hmem
      rcases List.mem_append.mp hmem with h1 | h1
      · exact h kv (List.mem_filter.mp h1).1
      · rw [List.mem_singleton] at h1
        subst h1
        intro hc
        have h2 := mem_of_mem_trimSpace _ _ hc
        exact not_sep_of_mem_splitOnChar ':' (trimSpace pair) _
          (List.get_mem _ _ _) h2
    · exact h kv hmem
  · exact h kv hmem

lemma parse_foldl_keys (pairs : List Str) (acc : List (Str × Int))
    (hacc : ∀ kv ∈ acc, ':' ∉ kv.1) :
    ∀ kv ∈ pairs.foldl parsePair acc, ':' ∉ kv.1 := by
  induction pairs generalizing acc with
  | nil => simpa using hacc
  | cons p rest ih =>
    simp only [List.foldl_cons]
    exact ih (parsePair acc p) (parsePair_keys acc p hacc)

lemma parseRateLimitMap_keys (input : Str) :
    ∀ kv ∈ parseRateLimitMap input, ':' ∉ kv.1 := by
  unfold parseRateLimitMap
  split
  · simp
  · exact parse_foldl_keys _ [] (by simp)

lemma lookupAssoc_eq_none (l : List (Str × Int)) (k : Str)
    (hkeys : ∀ kv ∈ l, ':' ∉ kv.1) (hk : ':' ∈ k) :
    lookupAssoc l k = none := by
  unfold lookupAssoc
  cases hf : l.find? (fun kv => decide (kv.1 = k)) with
  | none => rfl
  | some kv =>
    have hmem := List.mem_of_find?_eq_some hf
    have hpred := List.find?_some hf
    rw [decide_eq_true_eq] at hpred
    exact absurd (hpred ▸ hk) (hkeys kv hmem)

lemma lookupAssoc_cons_ne {α : Type} (k1 k : Str) (v : α) (l : List (Str × α))
    (h : k1 ≠ k) : lookupAssoc ((k1, v) :: l) k = lookupAssoc l k := by
  unfold lookupAssoc
  have hp : (fun kv : Str × α => decide (kv.1 = k)) (k1, v) = false := by
    simp [h]
  rw [List.find?_cons_of_neg _ (by simp [hp])]

lemma lookupAssoc_cons_eq {α : Type} (k : Str) (v : α) (l : List (Str × α)) :
    lookupAssoc ((k, v) :: l) k = some v := by
  unfold lookupAssoc
  rw [List.find?_cons_of_pos _ (by simp)]
  rfl

/-- C10: every key parseRateLimitMap loads is colon-free, so the
ip-path lookup key, which always contains a double colon, is never
found and the ip-path dimension always gets the halved default limit
(with Go truncating division). -/
theorem c10_confirmed (input ip path : Str) (defaultRPS : Int)
    (ipOverrides pathOverrides : List (Str × Int)) :
    (∀ kv ∈ parseRateLimitMap input, ':' ∉ kv.1) ∧
    lookupAssoc (parseRateLimitMap input) (ip ++ str "::" ++ path) = none ∧
    lookupAssoc
        (buildLimitConfigs defaultRPS ipOverrides pathOverrides
          (parseRateLimitMap input) ip path)
        (str "ip_path") =
      some { limit := Int.tdiv defaultRPS 2, windowSeconds := 60 } := by
  have hkeys := parseRateLimitMap_keys input
  have hcolon : ':' ∈ ip ++ str "::" ++ path := by
    apply List.mem_append.mpr
    left
    apply List.mem_append.mpr
    right
    decide
  have hnone := lookupAssoc_eq_none _ _ hkeys hcolon
  refine ⟨hkeys, hnone, ?_⟩
  unfold buildLimitConfigs
  simp only [hnone]
  rw [lookupAssoc_cons_ne _ _ _ _ (by decide), lookupAssoc_cons_ne _ _ _ _ (by decide),
    lookupAssoc_cons_eq]

/-- C10 (witness): the documented override string for one source-route
pair fails to load and the lookup yields the halved default of 50. -/
theorem c10_witness :
    lookupAssoc
        (buildLimitConfigs 100 [] []
          (parseRateLimitMap (str "1.2.3.4::/items/*:100"))
          (str "1.2.3.4") (str "/items/*"))
        (str "ip_path") =
      some { limit := 50, windowSeconds := 60 } :=
  (c10_confirmed (str "1.2.3.4::/items/*:100") (str "1.2.3.4") (str "/items/*") 100 [] []).2.2

end MeliProxy
